import Mathlib

/-!
Verification of the ephemeral-stories service (Go) against its
natural-language specification.  The Go source is shallowly embedded:
SQL queries become pure functions over an explicit database value,
the Redis Lua scripts become state transformers that record their
write commands, the WebSocket hub becomes a step function over an
association-list registry, and the cache layer becomes a function
computing the list of deleted keys.
-/

namespace StoriesService

/-- The story visibility enumeration, `CHECK (visibility IN ('FRIENDS', 'PRIVATE',
'PUBLIC'))` in the schema and `types.Visibility` in Go. -/
inductive Visibility where
  | PUBLIC
  | FRIENDS
  | PRIVATE
deriving DecidableEq, Repr

/-- One row of the `stories` table.  `deletedAt = none` models `deleted_at IS NULL`.
Timestamps are Unix seconds. -/
structure StoryRow where
  id : Nat
  authorId : Nat
  visibility : Visibility
  createdAt : Nat
  expiresAt : Nat
  deletedAt : Option Nat
deriving DecidableEq, Repr

/-- The database state reachable by the queries under study: the `stories` table,
the `story_audience` table as (story_id, user_id) pairs, and the `follows` table
as (follower_id, followed_id) pairs. -/
structure StoreDB where
  stories : List StoryRow
  audience : List (Nat × Nat)
  follows : List (Nat × Nat)
deriving DecidableEq, Repr

/-- `LEFT JOIN story_audience sa ON s.id = sa.story_id AND sa.user_id = $2`:
true iff an audience row (storyId, userId) exists. -/
def inAudience (db : StoreDB) (storyId userId : Nat) : Bool :=
  db.audience.any (fun p => p.1 == storyId && p.2 == userId)

/-- `LEFT JOIN follows f ON s.author_id = f.followed_id ... f.follower_id = $1`:
true iff a follow edge (follower, followed) exists. -/
def followsEdge (db : StoreDB) (follower followed : Nat) : Bool :=
  db.follows.any (fun p => p.1 == follower && p.2 == followed)

/-- `SELECT ... FROM stories WHERE id = $1` (single row lookup). -/
def findStory (db : StoreDB) (storyId : Nat) : Option StoryRow :=
  db.stories.find? (fun s => s.id == storyId)

/-- `CanUserViewStory` (postgres.go 247-278): load visibility, author and
audience membership for the story, then switch on visibility.  A missing story
surfaces as the `sql.ErrNoRows` error. -/
def canUserViewStory (db : StoreDB) (storyId userId : Nat) : Except String Bool :=
  match findStory db storyId with
  | none => Except.error "sql: no rows in result set"
  | some s =>
    match s.visibility with
    | Visibility.PUBLIC => Except.ok true
    | Visibility.FRIENDS => Except.ok (s.authorId == userId || inAudience db storyId userId)
    | Visibility.PRIVATE => Except.ok (s.authorId == userId || inAudience db storyId userId)

/-- The WHERE clause of `GetStoriesForUser` (postgres.go 203-231):
`visibility = 'PUBLIC' OR (visibility = 'FRIENDS' AND sa.user_id = $1)
OR (visibility = 'PRIVATE' AND sa.user_id = $1) OR s.author_id = $1`.
Note: no `expires_at` or `deleted_at` condition appears in this query. -/
def feedEligible (db : StoreDB) (userId : Nat) (s : StoryRow) : Bool :=
  s.visibility == Visibility.PUBLIC
    || (s.visibility == Visibility.FRIENDS && inAudience db s.id userId)
    || (s.visibility == Visibility.PRIVATE && inAudience db s.id userId)
    || s.authorId == userId

/-- Insert a story into a list kept in `created_at` descending order. -/
def insertDesc (s : StoryRow) : List StoryRow → List StoryRow
  | [] => [s]
  | t :: ts => if t.createdAt ≤ s.createdAt then s :: t :: ts else t :: insertDesc s ts

/-- `ORDER BY created_at DESC` (no secondary sort key appears in the queries). -/
def sortByCreatedDesc : List StoryRow → List StoryRow
  | [] => []
  | s :: ss => insertDesc s (sortByCreatedDesc ss)

/-- `GetStoriesForUser` (postgres.go 203-231): the eligible rows ordered by
`created_at DESC`.  The query has no LIMIT clause. -/
def getStoriesForUser (db : StoreDB) (userId : Nat) : List StoryRow :=
  sortByCreatedDesc (db.stories.filter (feedEligible db userId))

/-- `GetStoryByID` (postgres.go 233-245): `SELECT ... FROM stories WHERE id = $1`
with no `expires_at` or `deleted_at` condition. -/
def getStoryByID (db : StoreDB) (storyId : Nat) : Except String StoryRow :=
  match findStory db storyId with
  | none => Except.error "sql: no rows in result set"
  | some s => Except.ok s

/-- The `user_stories` CTE of `GetOptimizedFeedForUser`:
`deleted_at IS NULL AND expires_at > NOW() AND (visibility = 'PUBLIC'
OR (visibility = 'FRIENDS' AND f.follower_id = $1)
OR (visibility = 'PRIVATE' AND sa.user_id = $1) OR author_id = $1)`.
The FRIENDS arm tests the `follows` join, not the audience table. -/
def optimizedEligible (db : StoreDB) (now userId : Nat) (s : StoryRow) : Bool :=
  s.deletedAt == none && decide (now < s.expiresAt)
    && (s.visibility == Visibility.PUBLIC
        || (s.visibility == Visibility.FRIENDS && followsEdge db userId s.authorId)
        || (s.visibility == Visibility.PRIVATE && inAudience db s.id userId)
        || s.authorId == userId)

/-- `GetOptimizedFeedForUser`: the eligible rows ordered by `created_at DESC`
with `LIMIT 50`. -/
def getOptimizedFeedForUser (db : StoreDB) (now userId : Nat) : List StoryRow :=
  (sortByCreatedDesc (db.stories.filter (optimizedEligible db now userId))).take 50

/-- Spec predicate I6, written from the specification text for comparison with
the code: PUBLIC always; FRIENDS and PRIVATE grant to the author or to an
audience member. -/
def specCanView (db : StoreDB) (s : StoryRow) (v : Nat) : Bool :=
  match s.visibility with
  | Visibility.PUBLIC => true
  | Visibility.FRIENDS => s.authorId == v || inAudience db s.id v
  | Visibility.PRIVATE => s.authorId == v || inAudience db s.id v

/-- The visibility rule the optimized feed actually implements: like I6 except
that the FRIENDS arm grants to the author or to a follower of the author. -/
def optimizedCanView (db : StoreDB) (s : StoryRow) (v : Nat) : Bool :=
  match s.visibility with
  | Visibility.PUBLIC => true
  | Visibility.FRIENDS => s.authorId == v || followsEdge db v s.authorId
  | Visibility.PRIVATE => s.authorId == v || inAudience db s.id v

/-! ### Schema-level model for `CreateTables`, `RecordStoryView` and `AddReaction` -/

/-- A table description: its name and the column sets covered by a unique or
primary-key constraint, as declared in `CreateTables` (postgres.go 45-101). -/
structure TableSchema where
  name : String
  uniqueSets : List (List String)
deriving DecidableEq, Repr

/-- The schema created by `CreateTables`: `users` has PK `id` and UNIQUE `email`;
`stories` has PK `id`; `story_audience` has PK `(story_id, user_id)`;
`story_views` has only the SERIAL PK `id`; `reactions` has only the SERIAL PK
`id`; `follows` has PK `(follower_id, followed_id)`. -/
def createTablesSchemas : List TableSchema :=
  [⟨"users", [["id"], ["email"]]⟩,
   ⟨"stories", [["id"]]⟩,
   ⟨"story_audience", [["story_id", "user_id"]]⟩,
   ⟨"story_views", [["id"]]⟩,
   ⟨"reactions", [["id"]]⟩,
   ⟨"follows", [["follower_id", "followed_id"]]⟩]

/-- Whether the schema declares a unique (or primary-key) constraint on exactly
the given column set of the given table. -/
def hasUniqueOn (schemas : List TableSchema) (table : String) (cols : List String) : Bool :=
  schemas.any (fun t => t.name == table && t.uniqueSets.any (fun u => u == cols))

/-- One row of the `story_views` table (the SERIAL id is irrelevant here). -/
structure ViewRow where
  storyId : Nat
  viewerId : Nat
deriving DecidableEq, Repr

/-- `RecordStoryView` (postgres.go 280-288): `INSERT INTO story_views (story_id,
viewer_id) VALUES ($1, $2) ON CONFLICT (story_id, viewer_id) DO NOTHING`.
Postgres accepts an `ON CONFLICT (cols)` target only when a unique or exclusion
constraint covers exactly those columns; otherwise the statement fails with
error 42P10 and no row is inserted.  On a valid target the insert is skipped
when a row for the pair already exists. -/
def recordStoryView (schemas : List TableSchema) (views : List ViewRow)
    (storyId viewerId : Nat) : Except String (List ViewRow) :=
  if hasUniqueOn schemas "story_views" ["story_id", "viewer_id"] then
    if views.any (fun r => r.storyId == storyId && r.viewerId == viewerId) then
      Except.ok views
    else
      Except.ok (views ++ [⟨storyId, viewerId⟩])
  else
    Except.error "pq: there is no unique or exclusion constraint matching the ON CONFLICT specification"

/-- One row of the `reactions` table (the SERIAL id is irrelevant here). -/
structure ReactionRow where
  storyId : Nat
  userId : Nat
  reactionType : String
deriving DecidableEq, Repr

/-- First statement of `AddReaction` (postgres.go 290-305):
`DELETE FROM reactions WHERE story_id = $1 AND user_id = $2`. -/
def deleteReaction (storyId userId : Nat) (tbl : List ReactionRow) : List ReactionRow :=
  tbl.filter (fun r => !(r.storyId == storyId && r.userId == userId))

/-- Second statement of `AddReaction`:
`INSERT INTO reactions (story_id, user_id, reaction_type) VALUES ($1, $2, $3)`. -/
def insertReaction (storyId userId : Nat) (emoji : String) (tbl : List ReactionRow) :
    List ReactionRow :=
  tbl ++ [⟨storyId, userId, emoji⟩]

/-- `AddReaction` runs the delete and then the insert as two separate `Db.Exec`
calls; no transaction wraps them. -/
def addReaction (storyId userId : Nat) (emoji : String) (tbl : List ReactionRow) :
    List ReactionRow :=
  insertReaction storyId userId emoji (deleteReaction storyId userId tbl)

/-- The rows of the `reactions` table for a (story, user) pair. -/
def reactionsFor (storyId userId : Nat) (tbl : List ReactionRow) : List ReactionRow :=
  tbl.filter (fun r => r.storyId == storyId && r.userId == userId)

/-! ### Token-bucket rate limiter (ratelimit.TokenBucket) -/

/-- The bucket hash stored at `rate_limit:userID:action`: fields `tokens` and
`last_refill` (Unix seconds). -/
structure Bucket where
  tokens : Nat
  lastRefill : Nat
deriving DecidableEq, Repr

/-- The Redis state behind one rate-limit key: the bucket hash (absent before
first use) and the TTL set by `EXPIRE`. -/
structure KeyState where
  bucket : Option Bucket
  ttlSeconds : Option Nat
deriving DecidableEq, Repr

/-- A write command issued by a Lua script against the key:
`redis.call('HMSET', key, 'tokens', t, 'last_refill', l)` or
`redis.call('EXPIRE', key, s)`. -/
inductive RedisWrite where
  | hmset (tokens lastRefill : Nat)
  | setTtl (seconds : Nat)
deriving DecidableEq, Repr

/-- Apply one write command to the key state. -/
def applyWrite (st : KeyState) : RedisWrite → KeyState
  | RedisWrite.hmset t l => { st with bucket := some ⟨t, l⟩ }
  | RedisWrite.setTtl s => { st with ttlSeconds := some s }

/-- Apply a script's write commands in order. -/
def applyWrites (ws : List RedisWrite) (st : KeyState) : KeyState :=
  ws.foldl applyWrite st

/-- `HMGET key tokens last_refill` with the script's defaults:
`tokens = ... or capacity`, `last_refill = ... or now`. -/
def loadBucket (capacity now : Nat) (st : KeyState) : Bucket :=
  match st.bucket with
  | some b => b
  | none => ⟨capacity, now⟩

/-- The refill step shared by both scripts:
`tokens_to_add = math.floor((time_passed / window) * refill_rate)`; when
positive, `tokens = math.min(capacity, tokens + tokens_to_add)` and
`last_refill = now`.  Over the integers `floor((t / W) * R) = t * R / W`
(Nat division); a non-positive elapsed time adds nothing in both readings. -/
def refillBucket (capacity refill window now : Nat) (b : Bucket) : Bucket :=
  let add := (now - b.lastRefill) * refill / window
  if 0 < add then ⟨min capacity (b.tokens + add), now⟩ else b

/-- The `Allow` Lua script (TokenBucket.Allow): load, refill, then consume one
token when available.  Returns 1 (allowed) or 0 (denied) together with the
write commands the script executes (both branches HMSET the bucket and EXPIRE
the key to twice the window). -/
def allowScript (capacity refill window now : Nat) (st : KeyState) : Nat × List RedisWrite :=
  let b := refillBucket capacity refill window now (loadBucket capacity now st)
  if 0 < b.tokens then
    (1, [RedisWrite.hmset (b.tokens - 1) b.lastRefill, RedisWrite.setTtl (window * 2)])
  else
    (0, [RedisWrite.hmset b.tokens b.lastRefill, RedisWrite.setTtl (window * 2)])

/-- The `GetRemaining` Lua script (TokenBucket.GetRemaining): load, compute the
refilled token count and return it.  The script contains no `redis.call` write
command, so its write list is empty. -/
def remainingScript (capacity refill window now : Nat) (st : KeyState) : Nat × List RedisWrite :=
  let b := loadBucket capacity now st
  let add := (now - b.lastRefill) * refill / window
  (if 0 < add then min capacity (b.tokens + add) else b.tokens, [])

/-- One `Allow` round trip: run the script and apply its writes. -/
def allowOnce (capacity refill window now : Nat) (st : KeyState) : Bool × KeyState :=
  let r := allowScript capacity refill window now st
  (r.1 == 1, applyWrites r.2 st)

/-- `n` successive `Allow` calls, all timestamped `now`; returns the list of
allow/deny outcomes and the final key state. -/
def allowRun (capacity refill window now : Nat) : Nat → KeyState → List Bool × KeyState
  | 0, st => ([], st)
  | Nat.succ n, st =>
      ((allowOnce capacity refill window now st).1 ::
          (allowRun capacity refill window now n (allowOnce capacity refill window now st).2).1,
        (allowRun capacity refill window now n (allowOnce capacity refill window now st).2).2)

/-- The key state before any call: no bucket hash, no TTL. -/
def emptyKey : KeyState := ⟨none, none⟩

/-! ### Rate-limit middleware (middleware.RateLimitMiddleware) -/

/-- `getLimitForAction`: display value for the X-RateLimit-Limit header. -/
def getLimitForAction (action : String) : String :=
  if action == "stories" then "20"
  else if action == "reactions" then "60"
  else "100"

/-- An HTTP response as far as the middleware shapes it: status and headers. -/
structure HttpReply where
  status : Nat
  headers : List (String × String)
deriving DecidableEq, Repr

/-- Outcome of `RateLimitMiddleware` after `Allow` has been consulted: either a
429 reply, or the request proceeds with the rate-limit headers set. -/
inductive MiddlewareOutcome where
  | denied (reply : HttpReply)
  | passed (headers : List (String × String))
deriving DecidableEq, Repr

/-- The decision logic of `RateLimitMiddleware` (middleware part_007 35-88)
given the `Allow` outcome and the `GetRemaining` value: on deny it writes the
three X-RateLimit headers and returns `http.StatusTooManyRequests` (429); on
allow it writes the same headers and forwards the request. -/
def rateLimitMiddleware (action : String) (allowed : Bool) (remaining : Nat) :
    MiddlewareOutcome :=
  let hdrs := [("X-RateLimit-Limit", getLimitForAction action),
               ("X-RateLimit-Remaining", toString remaining),
               ("X-RateLimit-Reset", "60")]
  if allowed then MiddlewareOutcome.passed hdrs
  else MiddlewareOutcome.denied ⟨429, hdrs⟩

/-! ### Cache invalidation (cache.CacheService.CreateStory) -/

/-- Key family `user:followees:userID`. -/
def userFolloweesKey (u : String) : String := "user:followees:" ++ u

/-- Key family `feed:user:userID`. -/
def feedCacheKey (u : String) : String := "feed:user:" ++ u

/-- Key family `user:stats:userID`. -/
def userStatsKey (u : String) : String := "user:stats:" ++ u

/-- `InvalidateUserCache` (cache.go 103-113): deletes the followees, feed and
stats keys of the user, in that order. -/
def invalidateUserCache (u : String) : List String :=
  [userFolloweesKey u, feedCacheKey u, userStatsKey u]

/-- `InvalidateFeedCaches` (cache.go 116-127): deletes the feed key of every
listed user (the empty list deletes nothing). -/
def invalidateFeedCaches (userIDs : List String) : List String :=
  userIDs.map feedCacheKey

/-- The cache keys `CacheService.CreateStory` (cache.go 205-227) deletes after a
successful durable insert, given the author's follower list (as returned by
`GetUserFollowers`) and the request's audience list: `InvalidateUserCache` on
the author, then the follower feeds for PUBLIC/FRIENDS, then the audience feeds
for PRIVATE. -/
def createStoryDeletedKeys (vis : Visibility) (author : String)
    (followers audience : List String) : List String :=
  invalidateUserCache author
    ++ (if vis == Visibility.PUBLIC || vis == Visibility.FRIENDS then
          invalidateFeedCaches followers
        else [])
    ++ (if vis == Visibility.PRIVATE then invalidateFeedCaches audience else [])

/-- The key set the specification prescribes for `create_story`, written from
the spec text: the author's feed, stats and followees keys; the follower feeds
when vis ∈ PUBLIC, FRIENDS; the audience feeds when vis = PRIVATE. -/
def specCreateStoryKeys (vis : Visibility) (author : String)
    (followers audience : List String) : List String :=
  [feedCacheKey author, userStatsKey author, userFolloweesKey author]
    ++ (match vis with
        | Visibility.PUBLIC => followers.map feedCacheKey
        | Visibility.FRIENDS => followers.map feedCacheKey
        | Visibility.PRIVATE => audience.map feedCacheKey)

/-! ### WebSocket hub (websocket.Hub.Run) -/

/-- The hub state: the `clients` registry (a Go map user id → client, modelled
as an association list with the map's replace-on-assign semantics, clients
named by numeric ids) and the set of channels closed so far. -/
structure Hub where
  clients : List (String × Nat)
  closed : List Nat
deriving DecidableEq, Repr

/-- Go map read `h.clients[userID]`. -/
def lookupClient (h : Hub) (u : String) : Option Nat :=
  (h.clients.find? (fun p => p.1 == u)).map (fun p => p.2)

/-- Go map assignment `h.clients[userID] = client`: replace the existing
binding in place, or append a new one. -/
def mapAssign (u : String) (c : Nat) : List (String × Nat) → List (String × Nat)
  | [] => [(u, c)]
  | p :: ps => if p.1 == u then (u, c) :: ps else p :: mapAssign u c ps

/-- Go map deletion `delete(h.clients, userID)`. -/
def mapDelete (u : String) (l : List (String × Nat)) : List (String × Nat) :=
  l.filter (fun p => p.1 != u)

/-- First half of the register case of `Hub.Run` (storage.go 67-75): if the user
already has a connection, `close` the old channel.  The registry itself is not
yet touched. -/
def closeExisting (h : Hub) (u : String) : Hub :=
  match lookupClient h u with
  | some old => { h with closed := old :: h.closed }
  | none => h

/-- The full register case: close any existing channel, then index the new
client under the user id. -/
def registerClient (h : Hub) (u : String) (c : Nat) : Hub :=
  let h1 := closeExisting h u
  { h1 with clients := mapAssign u c h1.clients }

/-- The unregister case of `Hub.Run` (storage.go 78-85): if the user has an
entry, delete it and close the unregistering client's channel. -/
def unregisterClient (h : Hub) (u : String) (c : Nat) : Hub :=
  if (lookupClient h u).isSome then ⟨mapDelete u h.clients, c :: h.closed⟩ else h

/-- Commands processed by the hub's serializer loop.  Broadcasts do not change
the registry or close channels, so they are identity steps for this model. -/
inductive HubEvent where
  | register (u : String) (c : Nat)
  | unregister (u : String) (c : Nat)
  | broadcast
deriving DecidableEq, Repr

/-- One iteration of the `Hub.Run` select loop. -/
def hubStep (h : Hub) : HubEvent → Hub
  | HubEvent.register u c => registerClient h u c
  | HubEvent.unregister u c => unregisterClient h u c
  | HubEvent.broadcast => h

/-- The hub produced by `NewHub`: empty registry, nothing closed. -/
def initialHub : Hub := ⟨[], []⟩

/-- The hub state after processing a command sequence. -/
def runHub (evs : List HubEvent) : Hub :=
  evs.foldl hubStep initialHub

/-! ### Event publisher (events.EventPublisher) -/

/-- An event the publisher hands to `BroadcastToUser`: its type string, the
recipient (the story author), the story and the acting user. -/
structure EventMsg where
  etype : String
  recipient : String
  storyId : String
  actorId : String
  emoji : Option String
deriving DecidableEq, Repr

/-- `PublishStoryViewed` (publisher.go 35-56): suppressed when the viewer is the
author; skipped when the author is not connected; otherwise one `story.viewed`
event to the author.  The Go function always returns a nil error, modelled as
the second component `none`. -/
def publishStoryViewed (connected : String → Bool) (storyID viewerID authorID : String) :
    Option EventMsg × Option String :=
  if viewerID == authorID then (none, none)
  else if !connected authorID then (none, none)
  else (some ⟨"story.viewed", authorID, storyID, viewerID, none⟩, none)

/-- `PublishStoryReacted` (publisher.go 59-81): suppressed when the reacting
user is the author; skipped when the author is not connected; otherwise one
`story.reacted` event to the author.  Always returns a nil error. -/
def publishStoryReacted (connected : String → Bool) (storyID userID authorID emoji : String) :
    Option EventMsg × Option String :=
  if userID == authorID then (none, none)
  else if !connected authorID then (none, none)
  else (some ⟨"story.reacted", authorID, storyID, userID, some emoji⟩, none)

/-! ### Concrete states used by counterexamples and witnesses -/

/-- A FRIENDS story by user 1 with an empty audience. -/
def exampleFriendsStory : StoryRow := ⟨10, 1, Visibility.FRIENDS, 5, 1000, none⟩

/-- User 2 follows user 1; the story's audience is empty. -/
def exampleFriendsDB : StoreDB := ⟨[exampleFriendsStory], [], [(2, 1)]⟩

/-- A PUBLIC story that expired at t = 10 and was soft-deleted at t = 20. -/
def exampleExpiredStory : StoryRow := ⟨10, 1, Visibility.PUBLIC, 0, 10, some 20⟩

/-- A database holding only the expired, soft-deleted story. -/
def exampleExpiredDB : StoreDB := ⟨[exampleExpiredStory], [], []⟩

/-- A database with 51 live PUBLIC stories by user 1. -/
def exampleManyDB : StoreDB :=
  ⟨(List.range 51).map (fun i => ⟨i, 1, Visibility.PUBLIC, 0, 1000, none⟩), [], []⟩

/-- A reactions table holding one prior reaction of user 2 on story 1. -/
def exampleReactionTable : List ReactionRow := [⟨1, 2, "thumbsup"⟩]

/-! ### Helper lemmas -/

theorem mem_insertDesc {x s : StoryRow} {l : List StoryRow} :
    x ∈ insertDesc s l ↔ x = s ∨ x ∈ l := by
  induction l with
  | nil => simp [insertDesc]
  | cons t ts ih =>
      rw [insertDesc]
      by_cases hc : t.createdAt ≤ s.createdAt
      · simp [hc]
      · simp [hc, ih]
        tauto

theorem mem_sortByCreatedDesc {x : StoryRow} {l : List StoryRow} :
    x ∈ sortByCreatedDesc l ↔ x ∈ l := by
  induction l with
  | nil => simp [sortByCreatedDesc]
  | cons s ss ih =>
      rw [sortByCreatedDesc]
      simp [mem_insertDesc, ih]

theorem length_insertDesc (s : StoryRow) (l : List StoryRow) :
    (insertDesc s l).length = l.length + 1 := by
  induction l with
  | nil => simp [insertDesc]
  | cons t ts ih =>
      rw [insertDesc]
      by_cases hc : t.createdAt ≤ s.createdAt
      · simp [hc]
      · simp [hc, ih]

theorem length_sortByCreatedDesc (l : List StoryRow) :
    (sortByCreatedDesc l).length = l.length := by
  induction l with
  | nil => rfl
  | cons s ss ih =>
      rw [sortByCreatedDesc, length_insertDesc, ih, List.length_cons]

theorem pairwise_insertDesc {s : StoryRow} {l : List StoryRow}
    (h : l.Pairwise (fun a b => b.createdAt ≤ a.createdAt)) :
    (insertDesc s l).Pairwise (fun a b => b.createdAt ≤ a.createdAt) := by
  induction l with
  | nil => simp [insertDesc]
  | cons t ts ih =>
      rw [insertDesc]
      rcases List.pairwise_cons.mp h with ⟨ht, hts⟩
      by_cases hc : t.createdAt ≤ s.createdAt
      · simp only [if_pos hc]
        refine List.pairwise_cons.mpr ⟨?_, h⟩
        intro x hx
        rcases List.mem_cons.mp hx with rfl | hx
        · exact hc
        · exact le_trans (ht x hx) hc
      · simp only [if_neg hc]
        refine List.pairwise_cons.mpr ⟨?_, ih hts⟩
        intro x hx
        rcases mem_insertDesc.mp hx with rfl | hx
        · exact Nat.le_of_lt (Nat.lt_of_not_le hc)
        · exact ht x hx

theorem pairwise_sortByCreatedDesc (l : List StoryRow) :
    (sortByCreatedDesc l).Pairwise (fun a b => b.createdAt ≤ a.createdAt) := by
  induction l with
  | nil => simp [sortByCreatedDesc]
  | cons s ss ih => exact pairwise_insertDesc ih

theorem feedEligible_eq_specCanView (db : StoreDB) (v : Nat) (s : StoryRow) :
    feedEligible db v s = specCanView db s v := by
  cases hv : s.visibility <;>
    simp only [feedEligible, specCanView, hv] <;>
    cases s.authorId == v <;> cases inAudience db s.id v <;> decide

theorem optimizedEligible_eq (db : StoreDB) (now v : Nat) (s : StoryRow) :
    optimizedEligible db now v s =
      (s.deletedAt == none && decide (now < s.expiresAt) && optimizedCanView db s v) := by
  cases hv : s.visibility <;>
    simp only [optimizedEligible, optimizedCanView, hv] <;>
    cases s.authorId == v <;> cases inAudience db s.id v <;>
    cases followsEdge db v s.authorId <;>
    cases s.deletedAt == none <;> cases decide (now < s.expiresAt) <;> decide

theorem reactionsFor_deleteReaction (s v : Nat) (tbl : List ReactionRow) :
    reactionsFor s v (deleteReaction s v tbl) = [] := by
  rw [reactionsFor, deleteReaction, List.filter_filter, List.filter_eq_nil_iff]
  intro r _
  simp

theorem reactionsFor_addReaction (s v : Nat) (e : String) (tbl : List ReactionRow) :
    reactionsFor s v (addReaction s v e tbl) = [⟨s, v, e⟩] := by
  have h1 : reactionsFor s v (deleteReaction s v tbl) = [] := reactionsFor_deleteReaction s v tbl
  rw [reactionsFor] at h1
  rw [addReaction, insertReaction, reactionsFor, List.filter_append, h1]
  simp

theorem mem_keys_mapAssign {v u : String} {c : Nat} {l : List (String × Nat)} :
    v ∈ (mapAssign u c l).map Prod.fst ↔ v = u ∨ v ∈ l.map Prod.fst := by
  induction l with
  | nil => simp [mapAssign]
  | cons p ps ih =>
      rw [mapAssign]
      by_cases hp : (p.1 == u) = true
      · have hp' : p.1 = u := by simpa using hp
        simp [hp, hp']
        try tauto
      · simp only [hp, Bool.false_eq_true, if_false, List.map_cons, List.mem_cons, ih]
        tauto

theorem nodup_keys_mapAssign {u : String} {c : Nat} {l : List (String × Nat)}
    (h : (l.map Prod.fst).Nodup) : ((mapAssign u c l).map Prod.fst).Nodup := by
  induction l with
  | nil => simp [mapAssign]
  | cons p ps ih =>
      rw [mapAssign]
      rcases List.nodup_cons.mp h with ⟨hp, hps⟩
      by_cases hpu : (p.1 == u) = true
      · have hpu' : p.1 = u := by simpa using hpu
        simp only [hpu, if_true, List.map_cons]
        refine List.nodup_cons.mpr ⟨?_, hps⟩
        rw [← hpu']
        exact hp
      · simp only [hpu, Bool.false_eq_true, if_false, List.map_cons]
        refine List.nodup_cons.mpr ⟨?_, ih hps⟩
        intro hmem
        rcases mem_keys_mapAssign.mp hmem with rfl | hmem
        · exact hpu (by simp)
        · exact hp hmem

theorem nodup_keys_hubStep {h : Hub} (hn : (h.clients.map Prod.fst).Nodup) (e : HubEvent) :
    ((hubStep h e).clients.map Prod.fst).Nodup := by
  cases e with
  | register u c =>
      have hce : (closeExisting h u).clients = h.clients := by
        rw [closeExisting]
        cases lookupClient h u <;> rfl
      show ((registerClient h u c).clients.map Prod.fst).Nodup
      rw [registerClient]
      simp only [hce]
      exact nodup_keys_mapAssign hn
  | unregister u c =>
      show ((unregisterClient h u c).clients.map Prod.fst).Nodup
      rw [unregisterClient]
      by_cases hl : (lookupClient h u).isSome
      · simp only [if_pos hl]
        exact ((List.filter_sublist h.clients).map Prod.fst).nodup hn
      · simp only [if_neg hl]
        exact hn
  | broadcast => exact hn

theorem nodup_keys_runHub (evs : List HubEvent) :
    ((runHub evs).clients.map Prod.fst).Nodup := by
  rw [runHub]
  have : ∀ (h : Hub), (h.clients.map Prod.fst).Nodup →
      ((evs.foldl hubStep h).clients.map Prod.fst).Nodup := by
    induction evs with
    | nil => intro h hn; exact hn
    | cons e es ih =>
        intro h hn
        exact ih (hubStep h e) (nodup_keys_hubStep hn e)
  exact this initialHub (by simp [initialHub])

theorem filter_key_length_le_one {u : String} {l : List (String × Nat)}
    (h : (l.map Prod.fst).Nodup) :
    (l.filter (fun p => p.1 == u)).length ≤ 1 := by
  induction l with
  | nil => simp
  | cons p ps ih =>
      rcases List.nodup_cons.mp h with ⟨hp, hps⟩
      by_cases hpu : p.1 = u
      · have hnone : ps.filter (fun p => p.1 == u) = [] := by
          rw [List.filter_eq_nil_iff]
          intro q hq hqu
          apply hp
          rw [hpu, ← (by simpa using hqu : q.1 = u)]
          exact List.mem_map_of_mem Prod.fst hq
        simp [List.filter_cons, hpu, hnone]
      · simpa [List.filter_cons, hpu] using ih hps

theorem lookupClient_mapAssign (u : String) (c : Nat) (l : List (String × Nat)) (cl : List Nat) :
    lookupClient ⟨mapAssign u c l, cl⟩ u = some c := by
  induction l with
  | nil => simp [lookupClient, mapAssign]
  | cons p ps ih =>
      rw [lookupClient, mapAssign]
      by_cases hp : (p.1 == u) = true
      · simp [hp]
      · simp only [hp, Bool.false_eq_true, if_false, List.find?_cons,
          show (p.1 == u) = false by simpa using hp]
        exact ih

theorem allowOnce_bucket_pos (C R W now k : Nat) (ttl : Option Nat) (hk : 0 < k) :
    allowOnce C R W now ⟨some ⟨k, now⟩, ttl⟩ = (true, ⟨some ⟨k - 1, now⟩, some (W * 2)⟩) := by
  simp [allowOnce, allowScript, loadBucket, refillBucket, applyWrites, applyWrite,
    Nat.sub_self, hk]

theorem allowOnce_bucket_zero (C R W now : Nat) (ttl : Option Nat) :
    allowOnce C R W now ⟨some ⟨0, now⟩, ttl⟩ = (false, ⟨some ⟨0, now⟩, some (W * 2)⟩) := by
  simp [allowOnce, allowScript, loadBucket, refillBucket, applyWrites, applyWrite,
    Nat.sub_self]

theorem allowRun_drain (C R W now : Nat) :
    ∀ (n : Nat) (ttl : Option Nat),
      allowRun C R W now (n + 1) ⟨some ⟨n, now⟩, ttl⟩ =
        (List.replicate n true ++ [false], ⟨some ⟨0, now⟩, some (W * 2)⟩) := by
  intro n
  induction n with
  | zero =>
      intro ttl
      rw [allowRun, allowOnce_bucket_zero C R W now ttl]
      simp [allowRun]
  | succ m ih =>
      intro ttl
      rw [allowRun, allowOnce_bucket_pos C R W now (m + 1) ttl (Nat.succ_pos m)]
      simp only [Nat.add_sub_cancel]
      rw [ih (some (W * 2))]
      simp [List.replicate_succ]

theorem allowOnce_empty_pos (C R W now : Nat) (hC : 0 < C) :
    allowOnce C R W now emptyKey = (true, ⟨some ⟨C - 1, now⟩, some (W * 2)⟩) := by
  simp [allowOnce, allowScript, loadBucket, refillBucket, applyWrites, applyWrite,
    emptyKey, Nat.sub_self, hC]

theorem allowRun_from_empty (C R W now : Nat) (hC : 0 < C) :
    allowRun C R W now (C + 1) emptyKey =
      (List.replicate C true ++ [false], ⟨some ⟨0, now⟩, some (W * 2)⟩) := by
  obtain ⟨C', rfl⟩ : ∃ C', C = C' + 1 := ⟨C - 1, (Nat.succ_pred_eq_of_pos hC).symm⟩
  rw [allowRun, allowOnce_empty_pos (C' + 1) R W now hC]
  simp only [Nat.add_sub_cancel]
  rw [allowRun_drain (C' + 1) R W now C' (some (W * 2))]
  simp [List.replicate_succ]

theorem perm_rotate3 {α : Type} (a b c : α) (t : List α) :
    ([a, b, c] ++ t).Perm ([b, c, a] ++ t) := by
  have h : [a, b, c].Perm [b, c, a] :=
    (List.Perm.swap b a [c]).trans ((List.Perm.swap c a []).cons b)
  exact h.append_right t

/-! ### Claim theorems -/

/-- C1, counterexample: the claim's iff fails on the optimized feed.  User 2
follows user 1 but is not in the audience of user 1's FRIENDS story, so the I6
predicate denies access; `GetOptimizedFeedForUser` nevertheless returns the
story because its FRIENDS arm tests the follows table. -/
theorem optimized_feed_friends_counterexample :
    exampleFriendsStory ∈ getOptimizedFeedForUser exampleFriendsDB 50 2
    ∧ specCanView exampleFriendsDB exampleFriendsStory 2 = false := by
  constructor
  · decide
  · decide

/-- C1, amended: `CanUserViewStory` (behind GET /stories/id) and
`GetStoriesForUser` (feed eligibility) grant access exactly per the I6
predicate (PUBLIC always; FRIENDS/PRIVATE to the author or an audience
member); `GetOptimizedFeedForUser` instead uses, for FRIENDS stories, "author
or follower of the author", and additionally filters out expired and
soft-deleted rows. -/
theorem visibility_predicate_check (db : StoreDB) (v now : Nat) :
    (∀ sid s, findStory db sid = some s →
        canUserViewStory db sid v = Except.ok (specCanView db s v))
    ∧ (∀ s, s ∈ getStoriesForUser db v ↔ s ∈ db.stories ∧ specCanView db s v = true)
    ∧ (∀ s, optimizedEligible db now v s =
        (s.deletedAt == none && decide (now < s.expiresAt) && optimizedCanView db s v))
    ∧ (∀ s, s ∈ getOptimizedFeedForUser db now v →
        s.deletedAt = none ∧ now < s.expiresAt ∧ optimizedCanView db s v = true) := by
  refine ⟨?_, ?_, ?_, ?_⟩
  · intro sid s h
    rw [findStory] at h
    have hid : s.id = sid := by simpa using List.find?_some h
    subst hid
    simp only [canUserViewStory, findStory, h]
    cases hv : s.visibility <;> simp [specCanView, hv]
  · intro s
    rw [getStoriesForUser, mem_sortByCreatedDesc, List.mem_filter,
      feedEligible_eq_specCanView]
  · intro s
    exact optimizedEligible_eq db now v s
  · intro s hs
    have hs2 : s ∈ db.stories.filter (optimizedEligible db now v) :=
      mem_sortByCreatedDesc.mp (List.take_subset _ _ hs)
    have he : optimizedEligible db now v s = true := (List.mem_filter.mp hs2).2
    rw [optimizedEligible_eq] at he
    simp only [Bool.and_eq_true, beq_iff_eq, decide_eq_true_eq] at he
    exact ⟨he.1.1, he.1.2, he.2⟩

/-- C1, witness for the amended theorem at a concrete database. -/
theorem visibility_predicate_check_witness :
    findStory exampleFriendsDB 10 = some exampleFriendsStory
    ∧ canUserViewStory exampleFriendsDB 10 2 =
        Except.ok (specCanView exampleFriendsDB exampleFriendsStory 2) :=
  ⟨by decide, (visibility_predicate_check exampleFriendsDB 2 50).1 10 exampleFriendsStory
      (by decide)⟩

/-- C2: the code returns expired and soft-deleted stories.  The database holds
one PUBLIC story with `expires_at = 10` (≤ now = 100) and `deleted_at = 20`,
yet `GetStoriesForUser` lists it and `GetStoryByID` returns it: neither query
filters on `expires_at` or `deleted_at`. -/
theorem expired_and_deleted_story_returned :
    getStoriesForUser exampleExpiredDB 2 = [exampleExpiredStory]
    ∧ getStoryByID exampleExpiredDB 10 = Except.ok exampleExpiredStory
    ∧ exampleExpiredStory.expiresAt ≤ 100
    ∧ exampleExpiredStory.deletedAt = some 20 := by
  refine ⟨rfl, rfl, by decide, rfl⟩

/-- C3: `CreateTables` gives `story_views` only the SERIAL primary key, so the
`ON CONFLICT (story_id, viewer_id)` clause of `RecordStoryView` matches no
unique constraint and Postgres rejects the insert (42P10): no view row is ever
recorded, rather than exactly one per (story, viewer). -/
theorem record_view_on_conflict_rejected :
    hasUniqueOn createTablesSchemas "story_views" ["story_id", "viewer_id"] = false
    ∧ recordStoryView createTablesSchemas [] 1 2 =
        Except.error "pq: there is no unique or exclusion constraint matching the ON CONFLICT specification" := by
  exact ⟨by decide, rfl⟩

/-- C4, counterexample: between `AddReaction`'s two statements the pair has
zero rows.  Starting from one prior reaction of user 2 on story 1, the state
after the DELETE statement (the intermediate state of the non-transactional
sequence) holds no row for the pair. -/
theorem reaction_delete_insert_not_atomic :
    reactionsFor 1 2 exampleReactionTable = [⟨1, 2, "thumbsup"⟩]
    ∧ reactionsFor 1 2 (deleteReaction 1 2 exampleReactionTable) = [] := by
  exact ⟨rfl, rfl⟩

/-- C4, amended: after any uninterrupted serial sequence of `AddReaction`
calls for (s, v) ending in emoji e, exactly one row exists for the pair and it
carries e; but the delete and insert run as two separate statements with no
transaction, and the intermediate state after the delete holds zero rows for
the pair. -/
theorem reaction_last_write_wins (s v : Nat) (tbl : List ReactionRow)
    (es : List String) (e : String) :
    reactionsFor s v (List.foldl (fun t em => addReaction s v em t) tbl (es ++ [e]))
        = [⟨s, v, e⟩]
    ∧ reactionsFor s v (deleteReaction s v tbl) = [] := by
  constructor
  · rw [List.foldl_append, List.foldl_cons, List.foldl_nil]
    exact reactionsFor_addReaction s v e _
  · exact reactionsFor_deleteReaction s v tbl

/-- C5: from an absent bucket of capacity C (= refill R), C+1 `Allow` calls at
one timestamp yield exactly C allowed outcomes followed by one denial; the
remaining count at the denial is 0, and the middleware answers a denial with
HTTP 429 and the three X-RateLimit headers. -/
theorem rate_limit_exact_capacity (C now : Nat) (hC : 0 < C) :
    (allowRun C C 60 now (C + 1) emptyKey).1 = List.replicate C true ++ [false]
    ∧ (remainingScript C C 60 now (allowRun C C 60 now (C + 1) emptyKey).2).1 = 0
    ∧ rateLimitMiddleware "stories" false 0 =
        MiddlewareOutcome.denied ⟨429,
          [("X-RateLimit-Limit", "20"), ("X-RateLimit-Remaining", "0"),
           ("X-RateLimit-Reset", "60")]⟩ := by
  have h := allowRun_from_empty C C 60 now hC
  refine ⟨by rw [h], ?_, by decide⟩
  rw [h]
  simp [remainingScript, loadBucket, Nat.sub_self]

/-- C5, witness: the `stories` action bucket (C = R = 20). -/
theorem rate_limit_exact_capacity_witness :
    0 < 20
    ∧ ((allowRun 20 20 60 0 (20 + 1) emptyKey).1 = List.replicate 20 true ++ [false]
       ∧ (remainingScript 20 20 60 0 (allowRun 20 20 60 0 (20 + 1) emptyKey).2).1 = 0
       ∧ rateLimitMiddleware "stories" false 0 =
           MiddlewareOutcome.denied ⟨429,
             [("X-RateLimit-Limit", "20"), ("X-RateLimit-Remaining", "0"),
              ("X-RateLimit-Reset", "60")]⟩) :=
  ⟨by decide, rate_limit_exact_capacity 20 0 (by decide)⟩

/-- C6, counterexample: with 51 eligible PUBLIC stories, `GetStoriesForUser`
returns all 51 of them — the query has no LIMIT clause, contradicting the
claimed 50-story bound. -/
theorem feed_no_limit_counterexample :
    (getStoriesForUser exampleManyDB 2).length = 51
    ∧ 50 < (getStoriesForUser exampleManyDB 2).length := by
  exact ⟨by decide, by decide⟩

/-- C6, amended: both feed queries order by `created_at DESC` with no `id`
tie-break; `GetStoriesForUser` returns every eligible story with no limit,
while only `GetOptimizedFeedForUser` caps the result at 50. -/
theorem feed_order_and_limit (db : StoreDB) (v now : Nat) :
    (getStoriesForUser db v).Pairwise (fun a b => b.createdAt ≤ a.createdAt)
    ∧ (getStoriesForUser db v).length = (db.stories.filter (feedEligible db v)).length
    ∧ (getOptimizedFeedForUser db now v).length ≤ 50
    ∧ (getOptimizedFeedForUser db now v).Pairwise (fun a b => b.createdAt ≤ a.createdAt) := by
  refine ⟨pairwise_sortByCreatedDesc _, length_sortByCreatedDesc _, ?_, ?_⟩
  · rw [getOptimizedFeedForUser]
    exact List.length_take_le _ _
  · exact (pairwise_sortByCreatedDesc _).sublist (List.take_sublist _ _)

/-- C7: after a successful `CreateStory`, the cache layer deletes exactly the
keys the spec prescribes — the author's feed, stats and followees keys, plus
the follower feed keys for PUBLIC/FRIENDS or the audience feed keys for
PRIVATE — as a permutation of the spec's key list (so no other key is
removed). -/
theorem create_story_invalidation_keys (vis : Visibility) (author : String)
    (followers audience : List String) :
    (createStoryDeletedKeys vis author followers audience).Perm
      (specCreateStoryKeys vis author followers audience) := by
  cases vis with
  | PUBLIC =>
      have h1 : createStoryDeletedKeys Visibility.PUBLIC author followers audience
          = [userFolloweesKey author, feedCacheKey author, userStatsKey author]
              ++ followers.map feedCacheKey := by
        simp [createStoryDeletedKeys, invalidateUserCache, invalidateFeedCaches]
      rw [h1]
      exact perm_rotate3 _ _ _ _
  | FRIENDS =>
      have h1 : createStoryDeletedKeys Visibility.FRIENDS author followers audience
          = [userFolloweesKey author, feedCacheKey author, userStatsKey author]
              ++ followers.map feedCacheKey := by
        simp [createStoryDeletedKeys, invalidateUserCache, invalidateFeedCaches]
      rw [h1]
      exact perm_rotate3 _ _ _ _
  | PRIVATE =>
      have h1 : createStoryDeletedKeys Visibility.PRIVATE author followers audience
          = [userFolloweesKey author, feedCacheKey author, userStatsKey author]
              ++ audience.map feedCacheKey := by
        simp [createStoryDeletedKeys, invalidateUserCache, invalidateFeedCaches]
      rw [h1]
      exact perm_rotate3 _ _ _ _

/-- C8: the hub registry holds at most one channel per user id at any
reachable state, and the register case of `Hub.Run` closes the existing
channel (first half, registry untouched) before indexing the new client, which
then replaces the old entry. -/
theorem hub_single_live_channel :
    (∀ (evs : List HubEvent) (u : String),
        ((runHub evs).clients.filter (fun p => p.1 == u)).length ≤ 1)
    ∧ (∀ (h : Hub) (u : String) (old c : Nat), lookupClient h u = some old →
        (closeExisting h u).closed = old :: h.closed
        ∧ (closeExisting h u).clients = h.clients
        ∧ (registerClient h u c).closed = old :: h.closed
        ∧ (registerClient h u c).clients = mapAssign u c h.clients
        ∧ lookupClient (registerClient h u c) u = some c) := by
  constructor
  · intro evs u
    exact filter_key_length_le_one (nodup_keys_runHub evs)
  · intro h u old c hl
    have hce : closeExisting h u = ⟨h.clients, old :: h.closed⟩ := by
      rw [closeExisting, hl]
    have hreg : registerClient h u c = ⟨mapAssign u c h.clients, old :: h.closed⟩ := by
      rw [registerClient, hce]
    refine ⟨by rw [hce], by rw [hce], by rw [hreg], by rw [hreg], ?_⟩
    rw [hreg]
    exact lookupClient_mapAssign u c h.clients (old :: h.closed)

/-- C8, witness: user "7" with live channel 1 is replaced by channel 2. -/
theorem hub_single_live_channel_witness :
    lookupClient ⟨[("7", 1)], []⟩ "7" = some 1
    ∧ ((closeExisting ⟨[("7", 1)], []⟩ "7").closed = [1]
       ∧ (closeExisting ⟨[("7", 1)], []⟩ "7").clients = [("7", 1)]
       ∧ (registerClient ⟨[("7", 1)], []⟩ "7" 2).closed = [1]
       ∧ (registerClient ⟨[("7", 1)], []⟩ "7" 2).clients = mapAssign "7" 2 [("7", 1)]
       ∧ lookupClient (registerClient ⟨[("7", 1)], []⟩ "7" 2) "7" = some 2) :=
  ⟨rfl, hub_single_live_channel.2 ⟨[("7", 1)], []⟩ "7" 1 2 rfl⟩

/-- C9: when the acting user is the story author, `PublishStoryViewed` and
`PublishStoryReacted` broadcast nothing and return a nil error, for every hub
connectivity state. -/
theorem publisher_self_suppression (connected : String → Bool)
    (storyID actorID authorID emoji : String) (h : actorID = authorID) :
    publishStoryViewed connected storyID actorID authorID = (none, none)
    ∧ publishStoryReacted connected storyID actorID authorID emoji = (none, none) := by
  subst h
  constructor <;> simp [publishStoryViewed, publishStoryReacted]

/-- C9, witness: author "7" acting on their own story. -/
theorem publisher_self_suppression_witness :
    ("7" : String) = "7"
    ∧ (publishStoryViewed (fun _ => true) "1" "7" "7" = (none, none)
       ∧ publishStoryReacted (fun _ => true) "1" "7" "7" "fire" = (none, none)) :=
  ⟨rfl, publisher_self_suppression (fun _ => true) "1" "7" "7" "fire" rfl⟩

/-- C10: `GetRemaining` issues no write commands, so applying its (empty)
write list leaves the key state unchanged; its value is exactly the refilled
token count `Allow` would see (pending refill included, capped at capacity);
and a subsequent `Allow` behaves as if `GetRemaining` had never run. -/
theorem get_remaining_read_only (C R W now : Nat) (st : KeyState) :
    (remainingScript C R W now st).2 = []
    ∧ applyWrites (remainingScript C R W now st).2 st = st
    ∧ (remainingScript C R W now st).1 = (refillBucket C R W now (loadBucket C now st)).tokens
    ∧ allowOnce C R W now (applyWrites (remainingScript C R W now st).2 st)
        = allowOnce C R W now st := by
  refine ⟨rfl, rfl, ?_, rfl⟩
  rw [remainingScript, refillBucket]
  by_cases h : 0 < (now - (loadBucket C now st).lastRefill) * R / W
  · simp [h]
  · simp [h]

end StoriesService
